import Mathlib

/-
Verification of the libpgs-js PGS subtitle decoder.

The definitions below are shallow embeddings of the TypeScript sources:
  * RunLengthEncoding.decode / decodeFast      (src/utils/runLengthEncoding.ts)
  * CombinedBinaryReader / ArrayBinaryReader   (src/utils/combinedBinaryReader.ts, arrayBinaryReader.ts)
  * PgsRendererHelper.getIndexFromTimestamps   (src/pgsRendererHelper.ts)
  * SubtitleCache / Pgs                        (src/pgs.ts)

JavaScript-specific behaviour that matters for the embedding:
  * Bytes come from `Uint8Array` / readers; reading past the end of an
    `ArrayBinaryReader` yields `undefined`.  In the arithmetic used by the
    decoder `undefined & m` evaluates to `0` and `n | undefined` evaluates
    to `n` (ToInt32(NaN) = 0), and writing `undefined` (or `source[undefined]`)
    into the `Uint32Array` target stores `0`.  Pixels are therefore modelled
    as `Option Nat`, `none` standing for the JS value `undefined` being
    written (which the typed-array target coerces to 0).
  * `CombinedBinaryReader.readByte` past the end dereferences a `null`
    sub-reader and throws; the combined decode path is therefore modelled in
    `Option`, `none` standing for the thrown exception.
-/

namespace LibPgs

/-- One pixel as written by the decoder: `some v` is an ordinary palette
value, `none` is the JS `undefined` (written when a palette index is read
past the end of the input; a `Uint32Array` target coerces it to 0). -/
abbrev Pixel := Option Nat

/-- `RunLengthEncoding.decode`, the `BinaryReader` while-loop path, over the
flat byte sequence served by an `ArrayBinaryReader`.  Reads past the end of
the array yield `undefined`, with the JS coercions described above. -/
def rleDecode (src : Nat → Nat) : List Nat → List Pixel
  | [] => []
  | b1 :: rest =>
    if b1 ≠ 0 then some (src b1) :: rleDecode src rest
    else
      match rest with
      | [] =>
        -- byte2 is `undefined`: not strictly equal to 0, both flag bits
        -- evaluate to 0, num = 0, so nothing is emitted and the loop exits.
        []
      | b2 :: r2 =>
        if b2 = 0 then rleDecode src r2
        else if b2 &&& 0x40 ≠ 0 then
          match r2 with
          | [] =>
            -- byte3 is `undefined`: num = (num << 8) | undefined = num << 8;
            -- with bit8 set the palette index read is also `undefined`.
            List.replicate ((b2 &&& 0x3F) <<< 8)
              (if b2 &&& 0x80 ≠ 0 then none else some (src 0))
          | b3 :: r3 =>
            if b2 &&& 0x80 ≠ 0 then
              match r3 with
              | [] => List.replicate (((b2 &&& 0x3F) <<< 8) ||| b3) none
              | c :: r4 =>
                List.replicate (((b2 &&& 0x3F) <<< 8) ||| b3) (some (src c))
                  ++ rleDecode src r4
            else
              List.replicate (((b2 &&& 0x3F) <<< 8) ||| b3) (some (src 0))
                ++ rleDecode src r3
        else
          if b2 &&& 0x80 ≠ 0 then
            match r2 with
            | [] => List.replicate (b2 &&& 0x3F) none
            | c :: r3 =>
              List.replicate (b2 &&& 0x3F) (some (src c)) ++ rleDecode src r3
          else
            List.replicate (b2 &&& 0x3F) (some (src 0)) ++ rleDecode src r2

/-- `RunLengthEncoding.decodeFast`, the flat `Uint8Array` path.  It performs
the same reads and coercions directly on the array; its `target.fill` branch
and the unrolled fill loop both store `num` copies of the run value. -/
def rleDecodeFast (src : Nat → Nat) : List Nat → List Pixel
  | [] => []
  | b1 :: rest =>
    if b1 ≠ 0 then some (src b1) :: rleDecodeFast src rest
    else
      match rest with
      | [] => []
      | b2 :: r2 =>
        if b2 = 0 then rleDecodeFast src r2
        else if b2 &&& 0x40 ≠ 0 then
          match r2 with
          | [] =>
            List.replicate ((b2 &&& 0x3F) <<< 8)
              (if b2 &&& 0x80 ≠ 0 then none else some (src 0))
          | b3 :: r3 =>
            if b2 &&& 0x80 ≠ 0 then
              match r3 with
              | [] => List.replicate (((b2 &&& 0x3F) <<< 8) ||| b3) none
              | c :: r4 =>
                List.replicate (((b2 &&& 0x3F) <<< 8) ||| b3) (some (src c))
                  ++ rleDecodeFast src r4
            else
              List.replicate (((b2 &&& 0x3F) <<< 8) ||| b3) (some (src 0))
                ++ rleDecodeFast src r3
        else
          if b2 &&& 0x80 ≠ 0 then
            match r2 with
            | [] => List.replicate (b2 &&& 0x3F) none
            | c :: r3 =>
              List.replicate (b2 &&& 0x3F) (some (src c)) ++ rleDecodeFast src r3
          else
            List.replicate (b2 &&& 0x3F) (some (src 0)) ++ rleDecodeFast src r2

/-- One `CombinedBinaryReader.readByte`: skip exhausted sub-readers, then
read from the first sub-reader that still has data.  `none` models the
`TypeError` thrown when every sub-reader is exhausted (the cached current
sub-reader becomes `null` and is dereferenced). -/
def combRead : List (List Nat) → Option (Nat × List (List Nat))
  | [] => none
  | [] :: rest => combRead rest
  | (b :: bs) :: rest => some (b, bs :: rest)

theorem combRead_flatten_eq_nil {chunks : List (List Nat)} (h : combRead chunks = none) :
    chunks.flatten = [] := by
  induction chunks with
  | nil => rfl
  | cons c rest ih =>
    cases c with
    | nil => simpa using ih (by simpa [combRead] using h)
    | cons b bs => simp [combRead] at h

theorem combRead_flatten_eq_cons {chunks rest : List (List Nat)} {b : Nat}
    (h : combRead chunks = some (b, rest)) : chunks.flatten = b :: rest.flatten := by
  induction chunks with
  | nil => simp [combRead] at h
  | cons c cs ih =>
    cases c with
    | nil => simpa using ih (by simpa [combRead] using h)
    | cons x xs =>
      simp [combRead] at h
      obtain ⟨hx, hrest⟩ := h
      subst hx; subst hrest; simp

theorem combRead_flatten_lt {chunks rest : List (List Nat)} {b : Nat}
    (h : combRead chunks = some (b, rest)) : rest.flatten.length < chunks.flatten.length := by
  rw [combRead_flatten_eq_cons h]; simp

/-- `RunLengthEncoding.decode` run over a `CombinedBinaryReader` holding the
given chunk sequence.  The loop continues while `position < length`, i.e.
while some byte remains in the concatenation; a `readByte` past the end
throws (`none`). -/
def rleDecodeC (src : Nat → Nat) (chunks : List (List Nat)) : Option (List Pixel) :=
  match h1 : combRead chunks with
  | none => some []
  | some (b1, r1) =>
    if b1 ≠ 0 then (rleDecodeC src r1).map (some (src b1) :: ·)
    else
      match h2 : combRead r1 with
      | none => none
      | some (b2, r2) =>
        if b2 = 0 then rleDecodeC src r2
        else if b2 &&& 0x40 ≠ 0 then
          match h3 : combRead r2 with
          | none => none
          | some (b3, r3) =>
            if b2 &&& 0x80 ≠ 0 then
              match h4 : combRead r3 with
              | none => none
              | some (c, r4) =>
                (rleDecodeC src r4).map
                  (List.replicate (((b2 &&& 0x3F) <<< 8) ||| b3) (some (src c)) ++ ·)
            else
              (rleDecodeC src r3).map
                (List.replicate (((b2 &&& 0x3F) <<< 8) ||| b3) (some (src 0)) ++ ·)
        else
          if b2 &&& 0x80 ≠ 0 then
            match h3 : combRead r2 with
            | none => none
            | some (c, r3) =>
              (rleDecodeC src r3).map
                (List.replicate (b2 &&& 0x3F) (some (src c)) ++ ·)
          else
            (rleDecodeC src r2).map
              (List.replicate (b2 &&& 0x3F) (some (src 0)) ++ ·)
termination_by chunks.flatten.length
decreasing_by
  all_goals
    first
    | exact combRead_flatten_lt h1
    | exact (combRead_flatten_lt h2).trans (combRead_flatten_lt h1)
    | exact ((combRead_flatten_lt h3).trans (combRead_flatten_lt h2)).trans (combRead_flatten_lt h1)
    | exact (((combRead_flatten_lt h4).trans (combRead_flatten_lt h3)).trans
        (combRead_flatten_lt h2)).trans (combRead_flatten_lt h1)

example : rleDecode (fun b => b + 100) [5] = [some 105] := by decide
example : rleDecode (fun b => b + 100) [0, 0x46, 0x20] =
    List.replicate 1568 (some 100) := by
  simp only [rleDecode]
  norm_num [show (70 &&& 64 : Nat) = 64 from rfl, show (70 &&& 128 : Nat) = 0 from rfl,
    show (70 &&& 63 : Nat) = 6 from rfl, show ((6 : Nat) <<< 8 ||| 32) = 1568 from rfl]
example : rleDecodeC (fun b => b) [[0]] = none := by
  rw [rleDecodeC]; simp [combRead]
example : rleDecodeC (fun b => b) [[5], [0], [0]] = some [some 5] := by
  rw [rleDecodeC]; simp only [combRead]
  rw [rleDecodeC]; simp only [combRead]
  rw [rleDecodeC]; simp only [combRead]
  rw [rleDecodeC]; simp [combRead]

/-! ### Timestamp index: `PgsRendererHelper.getIndexFromTimestamps`

Query times and timestamps are JS numbers; they are modelled as rationals,
so `time * 90000` is exact arithmetic. -/

/-- The binary-search loop of `getIndexFromTimestamps`: while `left < right`,
`mid = (left + right + 1) >>> 1`; move `left` up to `mid` when
`pgsTimestamps[mid] <= pgsTime`, otherwise move `right` down to `mid - 1`. -/
def bsLoop (ts : List ℚ) (pgsTime : ℚ) (left right : Nat) : Nat :=
  if left < right then
    let mid := (left + right + 1) / 2
    if ts.getD mid 0 ≤ pgsTime then bsLoop ts pgsTime mid right
    else bsLoop ts pgsTime left (mid - 1)
  else left
termination_by right - left
decreasing_by all_goals omega

/-- `PgsRendererHelper.getIndexFromTimestamps`: -1 for an empty list, a
scaled time at or beyond the last timestamp, or before the first; otherwise
the result of the binary search. -/
def getIndexFromTimestamps (time : ℚ) (pgsTimestamps : List ℚ) : Int :=
  let len := pgsTimestamps.length
  if len = 0 then -1
  else
    let pgsTime := time * 90000
    if pgsTimestamps.getD (len - 1) 0 ≤ pgsTime then -1
    else if pgsTime < pgsTimestamps.getD 0 0 then -1
    else (bsLoop pgsTimestamps pgsTime 0 (len - 1) : Int)

theorem sorted_getD_mono {ts : List ℚ} (hs : ts.Sorted (· ≤ ·)) {i j : Nat}
    (hij : i ≤ j) (hj : j < ts.length) : ts.getD i 0 ≤ ts.getD j 0 := by
  have hi : i < ts.length := lt_of_le_of_lt hij hj
  rw [List.getD_eq_getElem ts 0 hi, List.getD_eq_getElem ts 0 hj]
  rcases lt_or_eq_of_le hij with h | h
  · exact List.pairwise_iff_getElem.mp hs i j hi hj h
  · subst h; rfl

theorem bsLoop_spec (ts : List ℚ) (pgs : ℚ) (hs : ts.Sorted (· ≤ ·)) :
    ∀ n left right, right - left = n → left ≤ right → right < ts.length →
    ts.getD left 0 ≤ pgs → (∀ j, right < j → j < ts.length → pgs < ts.getD j 0) →
    left ≤ bsLoop ts pgs left right ∧ bsLoop ts pgs left right ≤ right ∧
      ts.getD (bsLoop ts pgs left right) 0 ≤ pgs ∧
      ∀ j, bsLoop ts pgs left right < j → j < ts.length → pgs < ts.getD j 0 := by
  intro n
  induction n using Nat.strong_induction_on with
  | _ n ih =>
    intro left right hn hlr hrlen hleft hright
    rw [bsLoop]
    by_cases hlt : left < right
    · simp only [if_pos hlt]
      set mid := (left + right + 1) / 2 with hmid
      have hmid1 : left < mid := by omega
      have hmid2 : mid ≤ right := by omega
      by_cases hm : ts.getD mid 0 ≤ pgs
      · simp only [if_pos hm]
        have h := ih (right - mid) (by omega) mid right rfl (by omega) hrlen hm hright
        exact ⟨by omega, h.2.1, h.2.2.1, h.2.2.2⟩
      · simp only [if_neg hm]
        push_neg at hm
        have hnewright : ∀ j, mid - 1 < j → j < ts.length → pgs < ts.getD j 0 := by
          intro j hj hjlen
          exact lt_of_lt_of_le hm (sorted_getD_mono hs (by omega) hjlen)
        have h := ih (mid - 1 - left) (by omega) left (mid - 1) rfl (by omega)
          (by omega) hleft hnewright
        exact ⟨h.1, by omega, h.2.2.1, h.2.2.2⟩
    · simp only [if_neg hlt]
      exact ⟨le_refl _, by omega, hleft, by intro j hj hjl; exact hright j (by omega) hjl⟩

/-! ### Segment data model

Modelled from the spec: the segment classes (displaySet.ts,
presentationCompositionSegment.ts, paletteDefinitionSegment.ts,
objectDefinitionSegment.ts, windowDefinitionSegment.ts) are not among the
provided sources; the structures below carry the fields named by the spec's
data model (§3) and used by pgs.ts.  `compositionState = 0` is `Normal`. -/

/-- Modelled from the spec: one window rectangle of a WindowDefinitionSegment. -/
structure WindowDefinition where
  id : Nat
  horizontalPosition : Nat
  verticalPosition : Nat
  width : Nat
  height : Nat
deriving DecidableEq, Inhabited

/-- Modelled from the spec: a WindowDefinitionSegment declares several windows. -/
structure WindowDefinitionSegment where
  windows : List WindowDefinition
deriving DecidableEq, Inhabited

/-- Modelled from the spec: palette id plus the 256-entry index→packed-RGBA table. -/
structure PaletteDefinitionSegment where
  id : Nat
  rgba : List Nat
deriving DecidableEq, Inhabited

/-- Modelled from the spec: one object-definition fragment. -/
structure ObjectDefinitionSegment where
  id : Nat
  isFirstInSequence : Bool
  width : Nat
  height : Nat
  data : Option (List Nat)
deriving DecidableEq, Inhabited

/-- Modelled from the spec: placement of one object inside a window. -/
structure CompositionObject where
  id : Nat
  windowId : Nat
  horizontalPosition : Nat
  verticalPosition : Nat
  hasCropping : Bool
  croppingHorizontalPosition : Nat
  croppingVerticalPosition : Nat
  croppingWidth : Nat
  croppingHeight : Nat
deriving DecidableEq, Inhabited

/-- Modelled from the spec: the presentation composition of a display set. -/
structure PresentationCompositionSegment where
  width : Nat
  height : Nat
  paletteId : Nat
  compositionState : Nat
  compositionObjects : List CompositionObject
deriving DecidableEq, Inhabited

/-- Modelled from the spec: one display set as produced by the parser. -/
structure DisplaySet where
  presentationTimestamp : ℚ
  presentationComposition : Option PresentationCompositionSegment
  paletteDefinitions : List PaletteDefinitionSegment
  objectDefinitions : List ObjectDefinitionSegment
  windowDefinitions : List WindowDefinitionSegment
deriving DecidableEq, Inhabited

/-! ### Context resolver: the backward scan of `Pgs.computeSubtitleAtIndex` -/

/-- The loop-exit test `currentSet.presentationComposition?.compositionState !== 0`:
true when the composition is absent (`undefined !== 0`) or when its state is
not Normal. -/
def scanStop (ds : DisplaySet) : Bool :=
  match ds.presentationComposition with
  | none => true
  | some pcs => pcs.compositionState != 0

/-- The window contribution of one visited display set:
`for wd of windowDefinitions: ctxWindows.unshift(...wd.windows)` — each
segment's windows are pushed in front of the previous segments' windows. -/
def ownWindows (ds : DisplaySet) : List WindowDefinition :=
  ds.windowDefinitions.foldl (fun acc wd => wd.windows ++ acc) []

/-- One accumulator of the backward scan (the source loop maintains the
three accumulators simultaneously and `unshift`s the current set's
definitions, so earlier sets end up in front): starting at the target index
and walking down, stop after the first set with `scanStop`, or at index 0. -/
def collectDefs {α : Type} (f : DisplaySet → List α) (sets : List DisplaySet) :
    Nat → List α
  | 0 => f (sets.getD 0 default)
  | i + 1 =>
    let ds := sets.getD (i + 1) default
    if scanStop ds then f ds else collectDefs f sets i ++ f ds

/-- The `ctxPalettes` accumulator at a target index. -/
def ctxPalettes (sets : List DisplaySet) (i : Nat) : List PaletteDefinitionSegment :=
  collectDefs (fun ds => ds.paletteDefinitions) sets i

/-- The `ctxObjects` accumulator at a target index. -/
def ctxObjects (sets : List DisplaySet) (i : Nat) : List ObjectDefinitionSegment :=
  collectDefs (fun ds => ds.objectDefinitions) sets i

/-- The `ctxWindows` accumulator at a target index. -/
def ctxWindows (sets : List DisplaySet) (i : Nat) : List WindowDefinition :=
  collectDefs ownWindows sets i

/-- The index at which the backward scan stops. -/
def startIndex (sets : List DisplaySet) : Nat → Nat
  | 0 => 0
  | i + 1 => if scanStop (sets.getD (i + 1) default) then i + 1 else startIndex sets i

/-- Concatenation of per-display-set definition lists over the visited index
range `[s, i]`, ascending. -/
def joinRange {α : Type} (f : DisplaySet → List α) (sets : List DisplaySet)
    (s i : Nat) : List α :=
  ((List.range' s (i + 1 - s)).map (fun j => f (sets.getD j default))).flatten

theorem startIndex_le (sets : List DisplaySet) (i : Nat) : startIndex sets i ≤ i := by
  induction i with
  | zero => simp [startIndex]
  | succ i ih =>
    rw [startIndex]
    split
    · exact le_refl _
    · omega

theorem startIndex_stop (sets : List DisplaySet) (i : Nat) :
    startIndex sets i = 0 ∨ scanStop (sets.getD (startIndex sets i) default) = true := by
  induction i with
  | zero => left; rfl
  | succ i ih =>
    rw [startIndex]
    split
    · right; assumption
    · exact ih

theorem startIndex_no_stop (sets : List DisplaySet) (i : Nat) :
    ∀ j, startIndex sets i < j → j ≤ i → scanStop (sets.getD j default) = false := by
  induction i with
  | zero => intro j h1 h2; omega
  | succ i ih =>
    intro j h1 h2
    rw [startIndex] at h1
    by_cases hstop : scanStop (sets.getD (i + 1) default) = true
    · rw [if_pos hstop] at h1; omega
    · rw [if_neg hstop] at h1
      rcases Nat.lt_succ_iff_lt_or_eq.mp (Nat.lt_succ_of_le h2) with h | h
      · exact ih j h1 (by omega)
      · subst h; simpa using hstop

theorem collectDefs_eq_joinRange {α : Type} (f : DisplaySet → List α)
    (sets : List DisplaySet) (i : Nat) :
    collectDefs f sets i = joinRange f sets (startIndex sets i) i := by
  induction i with
  | zero => simp [collectDefs, joinRange, startIndex]
  | succ i ih =>
    rw [collectDefs, startIndex]
    by_cases hstop : scanStop (sets.getD (i + 1) default) = true
    · rw [if_pos hstop, if_pos hstop]
      simp [joinRange]
    · rw [if_neg hstop, if_neg hstop, ih]
      have hle : startIndex sets i ≤ i := startIndex_le sets i
      unfold joinRange
      have hrange : List.range' (startIndex sets i) (i + 1 + 1 - startIndex sets i) =
          List.range' (startIndex sets i) (i + 1 - startIndex sets i) ++ [i + 1] := by
        have h1 : i + 1 + 1 - startIndex sets i = (i + 1 - startIndex sets i) + 1 := by omega
        have h2 : startIndex sets i + (i + 1 - startIndex sets i) = i + 1 := by omega
        rw [h1, List.range'_1_concat]
        · simp [h2]
      rw [hrange]
      simp

/-! ### Subtitle compiler: `Pgs.computeSubtitleAtIndex`

Exceptions: a truncated run inside `RunLengthEncoding.decode` over the
`CombinedBinaryReader` throws; the compiler results are therefore wrapped in
an outer `Option`, `none` modelling the propagated exception and
`some r` a normal return of `r` (`r = none` is the JS `undefined`). -/

/-- The decoded pixel buffer as an RGBA word list: the target
`Uint32Array(width*height)` starts zeroed, decoded pixels are written from
index 0 on, writes past the end are dropped, and a JS `undefined` write
stores 0. -/
def pixelBuffer (n : Nat) (pixels : List Pixel) : List Nat :=
  ((pixels.map (fun p => p.getD 0)).take n) ++ List.replicate (n - pixels.length) 0

/-- The `ImageData` produced for one composition object. -/
structure ImageData where
  width : Nat
  height : Nat
  data : List Nat
deriving DecidableEq, Inhabited

/-- One compiled `(compositionObject, window, pixelData)` triple. -/
structure SubtitleCompositionData where
  compositionObject : CompositionObject
  window : WindowDefinition
  pixelData : ImageData
deriving DecidableEq, Inhabited

/-- The compiled subtitle for one display set. -/
structure SubtitleData where
  width : Nat
  height : Nat
  compositionData : List SubtitleCompositionData
deriving DecidableEq, Inhabited

/-- `Pgs.getPixelDataFromComposition`: one pass over `ctxObjects` takes
`width`/`height` from fragments marked first-in-sequence (the last matching
one wins, the loop overwrites) and gathers the data fragments of matching
ids; no fragments means no image; otherwise run-length decode the
concatenation through the palette.  Both the canvas path and the worker path
build the same `width × height` RGBA buffer. -/
def getPixelDataFromComposition (composition : CompositionObject)
    (palette : PaletteDefinitionSegment) (ctxObjs : List ObjectDefinitionSegment) :
    Option (Option ImageData) :=
  let wh := ctxObjs.foldl
    (fun wh ods =>
      if ods.id == composition.id && ods.isFirstInSequence then (ods.width, ods.height)
      else wh)
    (0, 0)
  let dataChunks := ctxObjs.filterMap
    (fun ods => if ods.id == composition.id then ods.data else none)
  if dataChunks.isEmpty then some none
  else
    match rleDecodeC (fun b => palette.rgba.getD b 0) dataChunks with
    | none => none
    | some pixels => some (some ⟨wh.1, wh.2, pixelBuffer (wh.1 * wh.2) pixels⟩)

/-- The `for (const compositionObject of compositionObjects)` loop: skip the
object when its window is absent or when it yields no pixel data. -/
def buildCompositionData (palette : PaletteDefinitionSegment)
    (ctxWins : List WindowDefinition) (ctxObjs : List ObjectDefinitionSegment) :
    List CompositionObject → Option (List SubtitleCompositionData)
  | [] => some []
  | co :: rest =>
    match ctxWins.find? (fun w => w.id == co.windowId) with
    | none => buildCompositionData palette ctxWins ctxObjs rest
    | some w =>
      match getPixelDataFromComposition co palette ctxObjs with
      | none => none
      | some none => buildCompositionData palette ctxWins ctxObjs rest
      | some (some px) =>
        (buildCompositionData palette ctxWins ctxObjs rest).map
          (SubtitleCompositionData.mk co w px :: ·)

/-- `Pgs.computeSubtitleAtIndex`. -/
def computeSubtitleAtIndex (sets : List DisplaySet) (index : Int) :
    Option (Option SubtitleData) :=
  if index < 0 ∨ (sets.length : Int) ≤ index then some none
  else
    let i := index.toNat
    let displaySet := sets.getD i default
    match displaySet.presentationComposition with
    | none => some none
    | some pcs =>
      match (ctxPalettes sets i).find? (fun p => p.id == pcs.paletteId) with
      | none => some none
      | some palette =>
        match buildCompositionData palette (ctxWindows sets i) (ctxObjects sets i)
            pcs.compositionObjects with
        | none => none
        | some compositionData =>
          if compositionData.isEmpty then some none
          else some (some ⟨pcs.width, pcs.height, compositionData⟩)

/-! ### Subtitle cache: the `SubtitleCache` LRU map

A JS `Map` keeps insertion order; it is modelled as an association list,
oldest entry first.  `Map.get` returns `undefined` both for a missing key
and for a stored `undefined` value; `SubtitleCache.get` therefore can tell
the two apart only through its `value !== undefined` test. -/

/-- The cache contents: display-set index to `SubtitleData`-or-absent. -/
abbrev SubtitleCacheMap := List (Int × Option SubtitleData)

/-- The fixed capacity: `new SubtitleCache(8)`. -/
def subtitleCacheMaxSize : Nat := 8

/-- `SubtitleCache.get`: a present value is promoted (delete + re-insert at
the end) and returned; otherwise `null` (modelled `none`) — note that a
stored `undefined` takes this branch too. -/
def cacheGet (c : SubtitleCacheMap) (index : Int) :
    Option SubtitleData × SubtitleCacheMap :=
  match c.lookup index with
  | some (some v) => (some v, (c.eraseP (fun p => p.1 == index)) ++ [(index, some v)])
  | some none => (none, c)
  | none => (none, c)

/-- `SubtitleCache.set`: delete an existing entry with the same key, else on
a full cache delete the first (oldest) key, then insert at the end. -/
def cacheSet (c : SubtitleCacheMap) (index : Int) (v : Option SubtitleData) :
    SubtitleCacheMap :=
  let c1 :=
    if (c.lookup index).isSome then c.eraseP (fun p => p.1 == index)
    else if subtitleCacheMaxSize ≤ c.length then
      match c with
      | [] => []
      | (k, _) :: _ => c.eraseP (fun p => p.1 == k)
    else c
  c1 ++ [(index, v)]

/-- The outcome of one `Pgs.getSubtitleAtIndex` call: the returned value, the
cache afterwards, and whether `computeSubtitleAtIndex` ran. -/
structure GetOutcome where
  value : Option SubtitleData
  cache : SubtitleCacheMap
  computed : Bool
deriving DecidableEq, Inhabited

/-- `Pgs.getSubtitleAtIndex` at the cache level, with the pure
`computeSubtitleAtIndex` of the loaded stream abstracted as `compute`. -/
def getSubtitleAtIndexT (compute : Int → Option SubtitleData)
    (c : SubtitleCacheMap) (index : Int) : GetOutcome :=
  let r := cacheGet c index
  match r.1 with
  | some v => ⟨some v, r.2, false⟩
  | none =>
    let result := compute index
    ⟨result, cacheSet r.2 index result, true⟩

/-- One cache operation, for stating invariants over arbitrary op sequences. -/
inductive CacheOp where
  | get (index : Int)
  | set (index : Int) (v : Option SubtitleData)

/-- Apply one cache operation. -/
def applyCacheOp (c : SubtitleCacheMap) : CacheOp → SubtitleCacheMap
  | .get i => (cacheGet c i).2
  | .set i v => cacheSet c i v

/-- Run a sequence of `getSubtitleAtIndex` calls, keeping the cache. -/
def runGets (compute : Int → Option SubtitleData) (c : SubtitleCacheMap)
    (indices : List Int) : SubtitleCacheMap :=
  indices.foldl (fun c i => (getSubtitleAtIndexT compute c i).cache) c

/-! ### The `Pgs` instance state and entry points -/

/-- The mutable state of a `Pgs` instance. -/
structure PgsState where
  displaySets : List DisplaySet
  updateTimestamps : List ℚ
  subtitleCache : SubtitleCacheMap
deriving Inhabited

/-- `Pgs.getSubtitleAtIndex` on the full state (outer `none`: a decode
exception propagated out of `computeSubtitleAtIndex`). -/
def Pgs.getSubtitleAtIndex (st : PgsState) (index : Int) :
    Option (Option SubtitleData × PgsState) :=
  let r := cacheGet st.subtitleCache index
  match r.1 with
  | some v => some (some v, { st with subtitleCache := r.2 })
  | none =>
    match computeSubtitleAtIndex st.displaySets index with
    | none => none
    | some result =>
      some (result, { st with subtitleCache := cacheSet r.2 index result })

/-- `Pgs.getSubtitleAtTimestamp`: timestamp lookup, then index lookup. -/
def Pgs.getSubtitleAtTimestamp (st : PgsState) (time : ℚ) :
    Option (Option SubtitleData × PgsState) :=
  Pgs.getSubtitleAtIndex st (getIndexFromTimestamps time st.updateTimestamps)

/-- One loop iteration of `Pgs.loadFromReader`: push the display set and its
timestamp. -/
def pushSet (st : PgsState) (ds : DisplaySet) : PgsState :=
  { st with
    displaySets := st.displaySets ++ [ds],
    updateTimestamps := st.updateTimestamps ++ [ds.presentationTimestamp] }

/-- What the parsing loop of `loadFromReader` delivers: either every display
set of the stream, or — when a read rejects — the sets completed before the
failure. -/
inductive ParseOutcome where
  | ok (sets : List DisplaySet)
  | failAfter (produced : List DisplaySet)

/-- `Pgs.loadFromReader`: the state is cleared first, then the parsed display
sets are pushed one by one; a read failure propagates (`some ()` in the first
component) leaving whatever was pushed so far. -/
def Pgs.loadFromReader (st : PgsState) (outcome : ParseOutcome) :
    Option Unit × PgsState :=
  let cleared : PgsState :=
    { displaySets := [], updateTimestamps := [], subtitleCache := [] }
  match outcome with
  | .ok sets => (none, sets.foldl pushSet cleared)
  | .failAfter produced => (some (), produced.foldl pushSet cleared)

/-- How `Pgs.loadFromUrl` reaches `loadFromReader`: a fetch rejection or a
non-OK HTTP status throws before any state is touched; otherwise the body is
handed to `loadFromReader`. -/
inductive FetchOutcome where
  | netError
  | httpError (status : Nat)
  | success (outcome : ParseOutcome)

/-- `Pgs.loadFromUrl` on the load-relevant outcomes. -/
def Pgs.loadFromUrl (st : PgsState) : FetchOutcome → Option Unit × PgsState
  | .netError => (some (), st)
  | .httpError _ => (some (), st)
  | .success outcome => Pgs.loadFromReader st outcome

theorem foldl_pushSet_displaySets (sets : List DisplaySet) (st : PgsState) :
    (sets.foldl pushSet st).displaySets = st.displaySets ++ sets := by
  induction sets generalizing st with
  | nil => simp
  | cons ds rest ih => simp [pushSet, ih]

theorem foldl_pushSet_updateTimestamps (sets : List DisplaySet) (st : PgsState) :
    (sets.foldl pushSet st).updateTimestamps =
      st.updateTimestamps ++ sets.map (·.presentationTimestamp) := by
  induction sets generalizing st with
  | nil => simp
  | cons ds rest ih => simp [pushSet, ih]

theorem foldl_pushSet_cache (sets : List DisplaySet) (st : PgsState) :
    (sets.foldl pushSet st).subtitleCache = st.subtitleCache := by
  induction sets generalizing st with
  | nil => rfl
  | cons ds rest ih => simp [pushSet, ih]

/-! ### Equivalence of the decode paths -/

theorem rleDecodeFast_eq_rleDecode (src : Nat → Nat) (l : List Nat) :
    rleDecodeFast src l = rleDecode src l := by
  induction l using rleDecode.induct src <;>
    (rw [rleDecodeFast.eq_def, rleDecode.eq_def]; try simp_all)

theorem rleDecodeC_sound_aux (src : Nat → Nat) :
    ∀ (n : Nat) (chunks : List (List Nat)), chunks.flatten.length = n →
    ∀ out, rleDecodeC src chunks = some out → rleDecode src chunks.flatten = out := by
  intro n
  induction n using Nat.strong_induction_on with
  | _ n ih =>
    intro chunks hn out hout
    rw [rleDecodeC] at hout
    split at hout
    case _ h1 =>
      rw [combRead_flatten_eq_nil h1]
      simp only [Option.some_inj] at hout
      simp [rleDecode, ← hout]
    case _ b1 r1 h1 =>
      have e1 := combRead_flatten_eq_cons h1
      split at hout
      case _ hb1 =>
        rcases Option.map_eq_some'.mp hout with ⟨o, ho, rfl⟩
        rw [e1, rleDecode.eq_def]
        simp only [if_pos hb1]
        have hL : r1.flatten.length + 1 = n := by rw [e1] at hn; simpa using hn
        have := ih r1.flatten.length (by omega) r1 rfl o ho
        rw [this]
      case _ hb1 =>
        split at hout
        case _ h2 => exact absurd hout (by simp)
        case _ b2 r2 h2 =>
          have e2 := combRead_flatten_eq_cons h2
          have hb1z : b1 = 0 := by push_neg at hb1; exact hb1
          subst hb1z
          split at hout
          case _ hb2 =>
            subst hb2
            rw [e1, e2, rleDecode.eq_def]
            simp only [ne_eq, not_true_eq_false, if_false, reduceIte]
            have hL : r2.flatten.length + 2 = n := by rw [e1, e2] at hn; simpa using hn
            have := ih r2.flatten.length (by omega) r2 rfl out hout
            simpa using this
          case _ hb2 =>
            split at hout
            case _ h40 =>
              split at hout
              case _ h3 => exact absurd hout (by simp)
              case _ b3 r3 h3 =>
                have e3 := combRead_flatten_eq_cons h3
                split at hout
                case _ h80 =>
                  split at hout
                  case _ h4 => exact absurd hout (by simp)
                  case _ c r4 h4 =>
                    have e4 := combRead_flatten_eq_cons h4
                    rcases Option.map_eq_some'.mp hout with ⟨o, ho, rfl⟩
                    rw [e1, e2, e3, e4, rleDecode.eq_def]
                    simp only [ne_eq, not_true_eq_false, if_false, if_neg hb2,
                      if_pos h40, if_pos h80, reduceIte]
                    have hL : r4.flatten.length + 4 = n := by
                      rw [e1, e2, e3, e4] at hn; simpa using hn
                    have := ih r4.flatten.length (by omega) r4 rfl o ho
                    simp [hb2, h40, h80, this]
                case _ h80 =>
                  rcases Option.map_eq_some'.mp hout with ⟨o, ho, rfl⟩
                  rw [e1, e2, e3, rleDecode.eq_def]
                  have hL : r3.flatten.length + 3 = n := by
                    rw [e1, e2, e3] at hn; simpa using hn
                  have := ih r3.flatten.length (by omega) r3 rfl o ho
                  simp [hb2, h40, h80, this]
            case _ h40 =>
              split at hout
              case _ h80 =>
                split at hout
                case _ h3 => exact absurd hout (by simp)
                case _ c r3 h3 =>
                  have e3 := combRead_flatten_eq_cons h3
                  rcases Option.map_eq_some'.mp hout with ⟨o, ho, rfl⟩
                  rw [e1, e2, e3, rleDecode.eq_def]
                  have hL : r3.flatten.length + 3 = n := by
                    rw [e1, e2, e3] at hn; simpa using hn
                  have := ih r3.flatten.length (by omega) r3 rfl o ho
                  simp [hb2, h40, h80, this]
              case _ h80 =>
                rcases Option.map_eq_some'.mp hout with ⟨o, ho, rfl⟩
                rw [e1, e2, rleDecode.eq_def]
                have hL : r2.flatten.length + 2 = n := by
                  rw [e1, e2] at hn; simpa using hn
                have := ih r2.flatten.length (by omega) r2 rfl o ho
                simp [hb2, h40, h80, this]

/-- Soundness of the chunked decode: when the `CombinedBinaryReader` path
returns (does not throw), its output is the flat decode of the chunk
concatenation. -/
theorem rleDecodeC_sound (src : Nat → Nat) (chunks : List (List Nat))
    (out : List Pixel) (h : rleDecodeC src chunks = some out) :
    rleDecode src chunks.flatten = out :=
  rleDecodeC_sound_aux src chunks.flatten.length chunks rfl out h

/-! ### Claim C1 -/

/-- C1: `RunLengthEncoding.decode` implements the spec's left-to-right rule:
a nonzero byte emits one pixel `palette[B1]`; the pair `0,0` emits nothing;
`0,B2` with `B2 ≠ 0` emits `L = B2 & 0x3F` pixels, `L` extended to
`(L << 8) | B3` when `B2 & 0x40` is set, coloured `palette[C]` when
`B2 & 0x80` is set and `palette[0]` otherwise; decoding stops on exhausted
input; and the input `(0, 0x46, 0x20)` emits exactly 1568 pixels equal to
`palette[0]`. -/
theorem C1_decode_rule :
    (∀ src : Nat → Nat, rleDecode src [] = []) ∧
    (∀ (src : Nat → Nat) (b1 : Nat) (rest : List Nat), b1 ≠ 0 →
      rleDecode src (b1 :: rest) = some (src b1) :: rleDecode src rest) ∧
    (∀ (src : Nat → Nat) (rest : List Nat),
      rleDecode src (0 :: 0 :: rest) = rleDecode src rest) ∧
    (∀ (src : Nat → Nat) (b2 : Nat) (rest : List Nat), b2 ≠ 0 →
      b2 &&& 0x40 = 0 → b2 &&& 0x80 = 0 →
      rleDecode src (0 :: b2 :: rest) =
        List.replicate (b2 &&& 0x3F) (some (src 0)) ++ rleDecode src rest) ∧
    (∀ (src : Nat → Nat) (b2 c : Nat) (rest : List Nat), b2 ≠ 0 →
      b2 &&& 0x40 = 0 → b2 &&& 0x80 ≠ 0 →
      rleDecode src (0 :: b2 :: c :: rest) =
        List.replicate (b2 &&& 0x3F) (some (src c)) ++ rleDecode src rest) ∧
    (∀ (src : Nat → Nat) (b2 b3 : Nat) (rest : List Nat), b2 ≠ 0 →
      b2 &&& 0x40 ≠ 0 → b2 &&& 0x80 = 0 →
      rleDecode src (0 :: b2 :: b3 :: rest) =
        List.replicate (((b2 &&& 0x3F) <<< 8) ||| b3) (some (src 0)) ++
          rleDecode src rest) ∧
    (∀ (src : Nat → Nat) (b2 b3 c : Nat) (rest : List Nat), b2 ≠ 0 →
      b2 &&& 0x40 ≠ 0 → b2 &&& 0x80 ≠ 0 →
      rleDecode src (0 :: b2 :: b3 :: c :: rest) =
        List.replicate (((b2 &&& 0x3F) <<< 8) ||| b3) (some (src c)) ++
          rleDecode src rest) ∧
    (∀ src : Nat → Nat,
      rleDecode src [0, 0x46, 0x20] = List.replicate 1568 (some (src 0))) := by
  refine ⟨fun src => rfl, ?_, ?_, ?_, ?_, ?_, ?_, ?_⟩
  · intro src b1 rest h
    rw [rleDecode.eq_def]; simp [h]
  · intro src rest
    rw [rleDecode.eq_def]; simp
  · intro src b2 rest h1 h40 h80
    rw [rleDecode.eq_def]
    rcases rest with _ | ⟨c, rest⟩ <;> simp [h1, h40, h80]
  · intro src b2 c rest h1 h40 h80
    rw [rleDecode.eq_def]; simp [h1, h40, h80]
  · intro src b2 b3 rest h1 h40 h80
    rw [rleDecode.eq_def]
    rcases rest with _ | ⟨c, rest⟩ <;> simp [h1, h40, h80]
  · intro src b2 b3 c rest h1 h40 h80
    rw [rleDecode.eq_def]; simp [h1, h40, h80]
  · intro src
    rw [rleDecode.eq_def]
    norm_num [show (70 &&& 64 : Nat) = 64 from rfl, show (70 &&& 128 : Nat) = 0 from rfl,
      show (70 &&& 63 : Nat) = 6 from rfl, show ((6 : Nat) <<< 8 ||| 32) = 1568 from rfl,
      rleDecode]

/-- Witness for C1 at concrete inputs: a raw pixel, a short indexed-colour
run (`B2 = 0x83`, `L = 3`, `C = 7`), and a long run. -/
theorem C1_decode_rule_witness :
    rleDecode (fun b => b + 100) (5 :: [0, 0x83, 7]) =
      some 105 :: rleDecode (fun b => b + 100) [0, 0x83, 7] ∧
    rleDecode (fun b => b + 100) (0 :: 0x83 :: 7 :: []) =
      List.replicate (0x83 &&& 0x3F) (some 107) ++ rleDecode (fun b => b + 100) [] ∧
    rleDecode (fun b => b + 100) [0, 0x46, 0x20] = List.replicate 1568 (some 100) :=
  ⟨C1_decode_rule.2.1 (fun b => b + 100) 5 [0, 0x83, 7] (by decide),
   C1_decode_rule.2.2.2.2.1 (fun b => b + 100) 0x83 7 [] (by decide) (by decide) (by decide),
   C1_decode_rule.2.2.2.2.2.2.2 (fun b => b + 100)⟩

/-! ### Claim C10 -/

/-- C10 counterexample: on the byte sequence `[0]` (a truncated instruction)
the flat `decode` and `decodeFast` paths emit 0 pixels and return, while the
`CombinedBinaryReader` path over the chunking `[[0]]` throws a `TypeError`
(modelled `none`) — the three paths are not equivalent for every byte
sequence. -/
theorem C10_paths_cex :
    rleDecodeC (fun b => b) [[0]] = none ∧
    rleDecode (fun b => b) [0] = [] ∧
    rleDecodeFast (fun b => b) [0] = [] := by
  refine ⟨?_, by decide, by decide⟩
  rw [rleDecodeC]; simp [combRead]

/-- C10 amended: `decodeFast` agrees with the `BinaryReader` path on every
flat byte sequence, and whenever the `CombinedBinaryReader` path returns
(which it does on every input whose final instruction is not truncated), it
agrees — pixel count and contents — with the flat paths on the chunk
concatenation, for any chunking. -/
theorem C10_paths_equiv :
    (∀ (src : Nat → Nat) (l : List Nat), rleDecodeFast src l = rleDecode src l) ∧
    (∀ (src : Nat → Nat) (chunks : List (List Nat)) (out : List Pixel),
      rleDecodeC src chunks = some out →
      rleDecode src chunks.flatten = out ∧
      rleDecodeFast src chunks.flatten = out ∧
      out.length = (rleDecode src chunks.flatten).length) := by
  refine ⟨rleDecodeFast_eq_rleDecode, ?_⟩
  intro src chunks out h
  have h1 := rleDecodeC_sound src chunks out h
  exact ⟨h1, by rw [rleDecodeFast_eq_rleDecode, h1], by rw [h1]⟩

/-- Witness for C10 at a concrete chunked input: the bytes `5, 0, 0` split as
`[5], [0, 0]` decode to one pixel on all three paths. -/
theorem C10_paths_equiv_witness :
    rleDecodeC (fun b => b + 100) [[5], [0, 0]] = some [some 105] ∧
    rleDecode (fun b => b + 100) ([[5], [0, 0]] : List (List Nat)).flatten = [some 105] ∧
    rleDecodeFast (fun b => b + 100) ([[5], [0, 0]] : List (List Nat)).flatten = [some 105] := by
  have hc : rleDecodeC (fun b => b + 100) [[5], [0, 0]] = some [some 105] := by
    rw [rleDecodeC]; simp only [combRead]
    rw [rleDecodeC]; simp only [combRead]
    rw [rleDecodeC]; simp only [combRead]
    rw [rleDecodeC]; simp [combRead]
  have h := C10_paths_equiv.2 (fun b => b + 100) [[5], [0, 0]] [some 105] hc
  exact ⟨hc, h.1, h.2.1⟩

/-! ### Claim C3 -/

/-- C3 counterexample: on the unsorted timestamp list `[0, 3, 9, 2, 9]` and
query time `1/18000` s (scaled time 5), the function returns index 1 even
though none of the -1 conditions hold and index 3 also satisfies
`timestamps[3] = 2 ≤ 5`, so 1 is not the largest such index — the claim is
false for arbitrary (unsorted) timestamp lists. -/
theorem C3_cex :
    getIndexFromTimestamps (1 / 18000) [0, 3, 9, 2, 9] = 1 ∧
    ((1 : ℚ) / 18000) * 90000 = 5 ∧
    ([0, 3, 9, 2, 9] : List ℚ) ≠ [] ∧
    ¬(((1 : ℚ) / 18000) * 90000 < ([0, 3, 9, 2, 9] : List ℚ).getD 0 0) ∧
    ¬(([0, 3, 9, 2, 9] : List ℚ).getD 4 0 ≤ ((1 : ℚ) / 18000) * 90000) ∧
    ([0, 3, 9, 2, 9] : List ℚ).getD 3 0 ≤ ((1 : ℚ) / 18000) * 90000 ∧
    ¬((3 : Nat) ≤ 1) := by
  have h5 : ((1 : ℚ) / 18000) * 90000 = 5 := by norm_num
  refine ⟨?_, h5, by simp, by rw [h5]; norm_num [List.getD],
    by rw [h5]; norm_num [List.getD], by rw [h5]; norm_num [List.getD], by norm_num⟩
  unfold getIndexFromTimestamps
  rw [if_neg (by norm_num)]
  rw [if_neg (by rw [h5]; norm_num [List.getD]), if_neg (by rw [h5]; norm_num [List.getD])]
  have e1 : bsLoop [0, 3, 9, 2, 9] (5 : ℚ) 0 4 = bsLoop [0, 3, 9, 2, 9] (5 : ℚ) 0 1 := by
    rw [bsLoop]
    rw [if_pos (by norm_num)]
    norm_num [List.getD]
  have e2 : bsLoop [0, 3, 9, 2, 9] (5 : ℚ) 0 1 = bsLoop [0, 3, 9, 2, 9] (5 : ℚ) 1 1 := by
    rw [bsLoop]
    rw [if_pos (by norm_num)]
    norm_num [List.getD]
  have e3 : bsLoop [0, 3, 9, 2, 9] (5 : ℚ) 1 1 = 1 := by
    rw [bsLoop]; norm_num
  simp only [List.length_cons, List.length_nil]
  norm_num [e1, e2, e3]

/-- C3 amended: with the timestamp list sorted non-decreasingly (the loaded
streams satisfy this), `getIndexFromTimestamps` returns -1 exactly for the
empty list, a scaled time below the first timestamp, or at/above the last;
in every other case it returns the largest index whose timestamp is at most
`t * 90000`. -/
theorem C3_index_spec (time : ℚ) (ts : List ℚ) (hs : ts.Sorted (· ≤ ·)) :
    (ts = [] → getIndexFromTimestamps time ts = -1) ∧
    (ts ≠ [] → time * 90000 < ts.getD 0 0 → getIndexFromTimestamps time ts = -1) ∧
    (ts ≠ [] → ts.getD (ts.length - 1) 0 ≤ time * 90000 →
      getIndexFromTimestamps time ts = -1) ∧
    (ts ≠ [] → ts.getD 0 0 ≤ time * 90000 → time * 90000 < ts.getD (ts.length - 1) 0 →
      ∃ i : Nat, getIndexFromTimestamps time ts = (i : Int) ∧ i < ts.length ∧
        ts.getD i 0 ≤ time * 90000 ∧
        ∀ j : Nat, j < ts.length → ts.getD j 0 ≤ time * 90000 → j ≤ i) := by
  refine ⟨?_, ?_, ?_, ?_⟩
  · intro h; subst h; rfl
  · intro hne hlt
    unfold getIndexFromTimestamps
    rw [if_neg (by simpa using hne)]
    by_cases hlast : ts.getD (ts.length - 1) 0 ≤ time * 90000
    · rw [if_pos hlast]
    · rw [if_neg hlast, if_pos hlt]
  · intro hne hge
    unfold getIndexFromTimestamps
    rw [if_neg (by simpa using hne), if_pos hge]
  · intro hne hfirst hlast
    have hlen : 0 < ts.length := List.length_pos.mpr hne
    unfold getIndexFromTimestamps
    rw [if_neg (by omega), if_neg (by exact not_le.mpr hlast), if_neg (by exact not_lt.mpr hfirst)]
    have hspec := bsLoop_spec ts (time * 90000) hs (ts.length - 1 - 0) 0 (ts.length - 1)
      rfl (by omega) (by omega) hfirst (by intro j hj hjl; omega)
    refine ⟨bsLoop ts (time * 90000) 0 (ts.length - 1), rfl, by omega, hspec.2.2.1, ?_⟩
    intro j hj hle
    by_contra hgt
    exact absurd hle (not_le.mpr (hspec.2.2.2 j (by omega) hj))

/-- Witness for C3 at a concrete sorted list: `[0, 900]` queried at `1/900` s
(scaled time 100) yields the largest index with timestamp ≤ 100, namely 0. -/
theorem C3_index_spec_witness :
    ∃ i : Nat, getIndexFromTimestamps (1 / 900) [0, 900] = (i : Int) ∧
      i < ([0, 900] : List ℚ).length ∧
      ([0, 900] : List ℚ).getD i 0 ≤ (1 / 900 : ℚ) * 90000 ∧
      ∀ j : Nat, j < ([0, 900] : List ℚ).length →
        ([0, 900] : List ℚ).getD j 0 ≤ (1 / 900 : ℚ) * 90000 → j ≤ i := by
  have hs : ([0, 900] : List ℚ).Sorted (· ≤ ·) := by
    simp [List.sorted_cons]
  exact (C3_index_spec (1 / 900) [0, 900] hs).2.2.2 (by simp)
    (by norm_num [List.getD]) (by norm_num [List.getD])

/-! ### Claims C2 and C7: the backward scan -/

theorem scanStop_eq_true_iff (ds : DisplaySet) :
    scanStop ds = true ↔ ds.presentationComposition = none ∨
      ∃ pcs, ds.presentationComposition = some pcs ∧ pcs.compositionState ≠ 0 := by
  unfold scanStop
  rcases h : ds.presentationComposition with _ | pcs <;> simp [h]

theorem scanStop_eq_false_iff (ds : DisplaySet) :
    scanStop ds = false ↔
      ∃ pcs, ds.presentationComposition = some pcs ∧ pcs.compositionState = 0 := by
  unfold scanStop
  rcases h : ds.presentationComposition with _ | pcs <;> simp [h]

/-- A display set carrying a palette definition, composition state Normal. -/
def c2SetWithPalette : DisplaySet :=
  { presentationTimestamp := 0,
    presentationComposition := some
      { width := 10, height := 10, paletteId := 7, compositionState := 0,
        compositionObjects := [] },
    paletteDefinitions := [{ id := 7, rgba := [1, 2, 3] }],
    objectDefinitions := [],
    windowDefinitions := [] }

/-- A display set with no presentation composition at all. -/
def c2SetNoComposition : DisplaySet :=
  { presentationTimestamp := 1,
    presentationComposition := none,
    paletteDefinitions := [],
    objectDefinitions := [],
    windowDefinitions := [] }

/-- A target display set, composition state Normal. -/
def c2Target : DisplaySet :=
  { presentationTimestamp := 2,
    presentationComposition := some
      { width := 10, height := 10, paletteId := 7, compositionState := 0,
        compositionObjects := [] },
    paletteDefinitions := [],
    objectDefinitions := [],
    windowDefinitions := [] }

/-- The three-set stream for the C2 counterexample. -/
def c2Sets : List DisplaySet := [c2SetWithPalette, c2SetNoComposition, c2Target]

/-- C2 counterexample: scanning from index 2, no visited DisplaySet has a
composition with `compositionState ≠ Normal` (index 1 has no composition at
all), so by the claim the scan should stop only at index 0 and include the
index-0 palette definition — but the code stops at index 1 and the palette
accumulator is empty. -/
theorem C2_cex :
    startIndex c2Sets 2 = 1 ∧
    (c2Sets.getD 0 default).presentationComposition.map (·.compositionState) = some 0 ∧
    (c2Sets.getD 1 default).presentationComposition = none ∧
    (c2Sets.getD 2 default).presentationComposition.map (·.compositionState) = some 0 ∧
    ctxPalettes c2Sets 2 = [] ∧
    (c2Sets.getD 0 default).paletteDefinitions ≠ [] := by
  refine ⟨rfl, rfl, rfl, rfl, rfl, by simp [c2Sets, c2SetWithPalette]⟩

/-- C2 amended: the backward scan visits `i, i-1, …` and stops exactly at
the first visited DisplaySet whose composition is absent or has
`compositionState ≠ Normal` (that set's own definitions still accumulated),
or at index 0; each accumulator is exactly the concatenation of the visited
sets' definitions, so definitions before the stopping point are excluded. -/
theorem C2_scan_stop (sets : List DisplaySet) (i : Nat) (hi : i < sets.length) :
    startIndex sets i ≤ i ∧
    (startIndex sets i = 0 ∨
      (sets.getD (startIndex sets i) default).presentationComposition = none ∨
      ∃ pcs, (sets.getD (startIndex sets i) default).presentationComposition = some pcs ∧
        pcs.compositionState ≠ 0) ∧
    (∀ j, startIndex sets i < j → j ≤ i →
      ∃ pcs, (sets.getD j default).presentationComposition = some pcs ∧
        pcs.compositionState = 0) ∧
    ctxPalettes sets i =
      joinRange (fun ds => ds.paletteDefinitions) sets (startIndex sets i) i ∧
    ctxObjects sets i =
      joinRange (fun ds => ds.objectDefinitions) sets (startIndex sets i) i ∧
    ctxWindows sets i = joinRange ownWindows sets (startIndex sets i) i := by
  refine ⟨startIndex_le sets i, ?_, ?_,
    collectDefs_eq_joinRange _ sets i, collectDefs_eq_joinRange _ sets i,
    collectDefs_eq_joinRange _ sets i⟩
  · rcases startIndex_stop sets i with h | h
    · exact Or.inl h
    · rcases (scanStop_eq_true_iff _).mp h with h | h
      · exact Or.inr (Or.inl h)
      · exact Or.inr (Or.inr h)
  · intro j h1 h2
    exact (scanStop_eq_false_iff _).mp (startIndex_no_stop sets i j h1 h2)

/-- Witness for C2 on the concrete three-set stream. -/
theorem C2_scan_stop_witness :
    startIndex c2Sets 2 ≤ 2 ∧
    (startIndex c2Sets 2 = 0 ∨
      (c2Sets.getD (startIndex c2Sets 2) default).presentationComposition = none ∨
      ∃ pcs, (c2Sets.getD (startIndex c2Sets 2) default).presentationComposition = some pcs ∧
        pcs.compositionState ≠ 0) ∧
    (∀ j, startIndex c2Sets 2 < j → j ≤ 2 →
      ∃ pcs, (c2Sets.getD j default).presentationComposition = some pcs ∧
        pcs.compositionState = 0) ∧
    ctxPalettes c2Sets 2 =
      joinRange (fun ds => ds.paletteDefinitions) c2Sets (startIndex c2Sets 2) 2 ∧
    ctxObjects c2Sets 2 =
      joinRange (fun ds => ds.objectDefinitions) c2Sets (startIndex c2Sets 2) 2 ∧
    ctxWindows c2Sets 2 = joinRange ownWindows c2Sets (startIndex c2Sets 2) 2 :=
  C2_scan_stop c2Sets 2 (by simp [c2Sets])

theorem joinRange_decomp {α : Type} (f : DisplaySet → List α) (sets : List DisplaySet)
    (s i j1 j2 : Nat) (hs : s ≤ j1) (h12 : j1 < j2) (h2i : j2 ≤ i) :
    ∃ A B C, joinRange f sets s i =
      A ++ f (sets.getD j1 default) ++ B ++ f (sets.getD j2 default) ++ C := by
  unfold joinRange
  have hsplit : List.range' s (i + 1 - s) =
      List.range' s (j1 - s) ++ [j1] ++ List.range' (j1 + 1) (j2 - j1 - 1) ++ [j2] ++
        List.range' (j2 + 1) (i - j2) := by
    have e1 : List.range' s (j1 - s) ++ List.range' j1 (i + 1 - j1) =
        List.range' s (i + 1 - s) := by
      have h := List.range'_append_1 s (j1 - s) (i + 1 - j1)
      rw [show s + (j1 - s) = j1 by omega,
        show (i + 1 - j1) + (j1 - s) = i + 1 - s by omega] at h
      exact h
    have e2 : List.range' j1 (i + 1 - j1) =
        j1 :: List.range' (j1 + 1) (i - j1) := by
      have h : i + 1 - j1 = (i - j1) + 1 := by omega
      rw [h, List.range'_succ]
    have e3 : List.range' (j1 + 1) (j2 - j1 - 1) ++ List.range' j2 (i + 1 - j2) =
        List.range' (j1 + 1) (i - j1) := by
      have h := List.range'_append_1 (j1 + 1) (j2 - j1 - 1) (i + 1 - j2)
      rw [show j1 + 1 + (j2 - j1 - 1) = j2 by omega,
        show (i + 1 - j2) + (j2 - j1 - 1) = i - j1 by omega] at h
      exact h
    have e4 : List.range' j2 (i + 1 - j2) = j2 :: List.range' (j2 + 1) (i - j2) := by
      have h : i + 1 - j2 = (i - j2) + 1 := by omega
      rw [h, List.range'_succ]
    rw [← e1, e2, ← e3, e4]
    simp
  rw [hsplit]
  refine ⟨(List.map (fun j => f (sets.getD j default)) (List.range' s (j1 - s))).flatten,
    (List.map (fun j => f (sets.getD j default))
      (List.range' (j1 + 1) (j2 - j1 - 1))).flatten,
    (List.map (fun j => f (sets.getD j default)) (List.range' (j2 + 1) (i - j2))).flatten, ?_⟩
  simp

/-- The first window of the C7 counterexample, declared in the first
WindowDefinition segment. -/
def c7Window1 : WindowDefinition :=
  { id := 1, horizontalPosition := 0, verticalPosition := 0, width := 4, height := 4 }

/-- The second window of the C7 counterexample, declared in the second
WindowDefinition segment. -/
def c7Window2 : WindowDefinition :=
  { id := 2, horizontalPosition := 5, verticalPosition := 5, width := 4, height := 4 }

/-- A display set with two WindowDefinition segments (window 1 arrives
before window 2). -/
def c7Set : DisplaySet :=
  { presentationTimestamp := 0,
    presentationComposition := some
      { width := 10, height := 10, paletteId := 0, compositionState := 0,
        compositionObjects := [] },
    paletteDefinitions := [],
    objectDefinitions := [],
    windowDefinitions := [{ windows := [c7Window1] }, { windows := [c7Window2] }] }

/-- C7 counterexample: window 1 arrives in the earlier WindowDefinition
segment of the same display set, yet the window accumulator lists window 2
first — within one DisplaySet the segments' windows end up in reverse
segment order, so the accumulator is not in arrival order. -/
theorem C7_cex :
    (c7Set.windowDefinitions.map (·.windows)) = [[c7Window1], [c7Window2]] ∧
    ctxWindows [c7Set] 0 = [c7Window2, c7Window1] ∧
    c7Window1 ≠ c7Window2 := by
  refine ⟨rfl, rfl, by decide⟩

/-- C7 amended: within each accumulator, definitions from an earlier visited
DisplaySet appear before those from a later one, and the palette/object
accumulators keep each set's own segment order (so ObjectDefinition
fragments sharing an id stay in arrival order); the window accumulator,
however, lists the WindowDefinition segments of one DisplaySet in reverse
segment order (windows within a single segment stay in order). -/
theorem C7_ctx_order (sets : List DisplaySet) (i j1 j2 : Nat)
    (h1 : startIndex sets i ≤ j1) (h12 : j1 < j2) (h2i : j2 ≤ i) :
    (∃ A B C, ctxPalettes sets i =
      A ++ (sets.getD j1 default).paletteDefinitions ++ B ++
        (sets.getD j2 default).paletteDefinitions ++ C) ∧
    (∃ A B C, ctxObjects sets i =
      A ++ (sets.getD j1 default).objectDefinitions ++ B ++
        (sets.getD j2 default).objectDefinitions ++ C) ∧
    (∃ A B C, ctxWindows sets i =
      A ++ ownWindows (sets.getD j1 default) ++ B ++
        ownWindows (sets.getD j2 default) ++ C) ∧
    (∀ ds : DisplaySet,
      ownWindows ds = (ds.windowDefinitions.reverse).flatMap (·.windows)) := by
  refine ⟨?_, ?_, ?_, ?_⟩
  · rw [ctxPalettes, collectDefs_eq_joinRange]
    exact joinRange_decomp _ sets _ i j1 j2 h1 h12 h2i
  · rw [ctxObjects, collectDefs_eq_joinRange]
    exact joinRange_decomp _ sets _ i j1 j2 h1 h12 h2i
  · rw [ctxWindows, collectDefs_eq_joinRange]
    exact joinRange_decomp _ sets _ i j1 j2 h1 h12 h2i
  · intro ds
    unfold ownWindows
    induction ds.windowDefinitions using List.reverseRecOn with
    | nil => rfl
    | append_singleton l wd ih => simp [ih]

/-- Witness for C7 on a concrete two-set stream (both Normal, so the scan
visits both). -/
theorem C7_ctx_order_witness :
    (∃ A B C, ctxPalettes [c2SetWithPalette, c2Target] 1 =
      A ++ ([c2SetWithPalette, c2Target].getD 0 default).paletteDefinitions ++ B ++
        ([c2SetWithPalette, c2Target].getD 1 default).paletteDefinitions ++ C) ∧
    (∃ A B C, ctxObjects [c2SetWithPalette, c2Target] 1 =
      A ++ ([c2SetWithPalette, c2Target].getD 0 default).objectDefinitions ++ B ++
        ([c2SetWithPalette, c2Target].getD 1 default).objectDefinitions ++ C) ∧
    (∃ A B C, ctxWindows [c2SetWithPalette, c2Target] 1 =
      A ++ ownWindows ([c2SetWithPalette, c2Target].getD 0 default) ++ B ++
        ownWindows ([c2SetWithPalette, c2Target].getD 1 default) ++ C) ∧
    (∀ ds : DisplaySet,
      ownWindows ds = (ds.windowDefinitions.reverse).flatMap (·.windows)) :=
  C7_ctx_order [c2SetWithPalette, c2Target] 1 0 1
    (by simp [startIndex, scanStop, c2Target]) (by omega) (by omega)

/-! ### Claims C4 and C5: the subtitle cache -/

theorem lookup_mem {c : SubtitleCacheMap} {i : Int} {b : Option SubtitleData}
    (h : c.lookup i = some b) : (i, b) ∈ c := by
  rcases List.lookup_eq_some_iff.mp h with ⟨l1, l2, rfl, -⟩
  simp

theorem cacheGet_length (c : SubtitleCacheMap) (i : Int) :
    ((cacheGet c i).2).length = c.length := by
  unfold cacheGet
  rcases h : c.lookup i with _ | (_ | v)
  · rfl
  · rfl
  · have hm := lookup_mem h
    have := List.length_eraseP_add_one (p := fun p => p.1 == i) hm (by simp)
    simp only [List.length_append, List.length_cons, List.length_nil]
    omega

theorem cacheSet_length_le (c : SubtitleCacheMap) (i : Int) (v : Option SubtitleData)
    (h : c.length ≤ subtitleCacheMaxSize) :
    (cacheSet c i v).length ≤ subtitleCacheMaxSize := by
  unfold cacheSet
  by_cases hs : (c.lookup i).isSome
  · rw [if_pos hs]
    rcases ho : c.lookup i with _ | b
    · rw [ho] at hs; simp at hs
    · have hm := lookup_mem ho
      have := List.length_eraseP_add_one (p := fun p => p.1 == i) hm (by simp)
      simp only [List.length_append, List.length_cons, List.length_nil]
      omega
  · rw [if_neg hs]
    by_cases hfull : subtitleCacheMaxSize ≤ c.length
    · rw [if_pos hfull]
      rcases c with _ | ⟨⟨k, w⟩, t⟩
      · simp [subtitleCacheMaxSize] at hfull
      · show (List.eraseP (fun p => p.1 == k) ((k, w) :: t) ++ [(i, v)]).length ≤ _
        rw [List.eraseP_cons_of_pos (by simp)]
        simp only [List.length_append, List.length_cons, List.length_nil] at h ⊢
        omega
    · rw [if_neg hfull]
      simp only [List.length_append, List.length_cons, List.length_nil]
      omega

theorem applyCacheOp_length_le (c : SubtitleCacheMap) (op : CacheOp)
    (h : c.length ≤ subtitleCacheMaxSize) :
    (applyCacheOp c op).length ≤ subtitleCacheMaxSize := by
  cases op with
  | get i => rw [applyCacheOp, cacheGet_length]; exact h
  | set i v => exact cacheSet_length_le c i v h

theorem foldl_applyCacheOp_length_le (ops : List CacheOp) :
    ∀ c : SubtitleCacheMap, c.length ≤ subtitleCacheMaxSize →
    (ops.foldl applyCacheOp c).length ≤ subtitleCacheMaxSize := by
  induction ops with
  | nil => intro c h; exact h
  | cons op rest ih =>
    intro c h
    exact ih _ (applyCacheOp_length_le c op h)

/-- C4: the three-state cache is broken in the code.  `SubtitleCache.get`
reads the JS `Map`, which yields `undefined` both for a missing key and for
a stored `undefined` value, so a cached "absent" outcome is returned as
`null` ("not in cache") — contradicting the inline comment `null means not
in cache, undefined means cached empty result`.  Concretely: the first
`getSubtitleAtIndex(0)` with an absent outcome stores the marker `(0,
undefined)`, yet the second call misses and recomputes. -/
theorem C4_cached_absent_recomputed :
    (getSubtitleAtIndexT (fun _ => none) [] 0).cache = [(0, none)] ∧
    (getSubtitleAtIndexT (fun _ => none) [] 0).computed = true ∧
    (getSubtitleAtIndexT (fun _ => none) [(0, none)] 0).computed = true ∧
    (getSubtitleAtIndexT (fun _ => none) [(0, none)] 0).value = none := by
  refine ⟨rfl, rfl, rfl, rfl⟩

set_option maxHeartbeats 1600000 in
/-- C5: the cache (a) never exceeds its capacity of 8 after any op sequence
from empty, (b) promotes a hit to most-recently-used, (c) evicts the oldest
entry when a new index is stored into a full cache, and (d) after compiling
the 9 distinct indices 0..8 in order, index 0 is evicted (keys are 1..8), a
lookup on it misses and recomputes, and both the original and the recomputed
value equal `compute 0`. -/
theorem C5_cache_lru :
    (∀ ops : List CacheOp,
      (ops.foldl applyCacheOp ([] : SubtitleCacheMap)).length ≤ subtitleCacheMaxSize) ∧
    (∀ (c : SubtitleCacheMap) (i : Int) (v : SubtitleData),
      (cacheGet c i).1 = some v →
      (cacheGet c i).2 = c.eraseP (fun p => p.1 == i) ++ [(i, some v)]) ∧
    (∀ (k : Int) (w : Option SubtitleData) (t : SubtitleCacheMap) (i : Int)
      (v : Option SubtitleData),
      ((k, w) :: t).lookup i = none → subtitleCacheMaxSize ≤ ((k, w) :: t).length →
      cacheSet ((k, w) :: t) i v = t ++ [(i, v)]) ∧
    (∀ compute : Int → Option SubtitleData,
      (runGets compute [] [0, 1, 2, 3, 4, 5, 6, 7, 8]).map Prod.fst =
        [1, 2, 3, 4, 5, 6, 7, 8] ∧
      (runGets compute [] [0, 1, 2, 3, 4, 5, 6, 7, 8]).lookup 0 = none ∧
      (getSubtitleAtIndexT compute (runGets compute [] [0, 1, 2, 3, 4, 5, 6, 7, 8])
        0).computed = true ∧
      (getSubtitleAtIndexT compute (runGets compute [] [0, 1, 2, 3, 4, 5, 6, 7, 8])
        0).value = compute 0 ∧
      (getSubtitleAtIndexT compute [] 0).value = compute 0) := by
  refine ⟨?_, ?_, ?_, ?_⟩
  · intro ops
    exact foldl_applyCacheOp_length_le ops [] (by simp [subtitleCacheMaxSize])
  · intro c i v h
    unfold cacheGet at h ⊢
    rcases ho : c.lookup i with _ | (_ | w)
    · rw [ho] at h; simp at h
    · rw [ho] at h; simp at h
    · rw [ho] at h
      dsimp only at h
      injection h with h
      rw [h]
  · intro k w t i v hmiss hfull
    unfold cacheSet
    rw [if_neg (by simp [hmiss]), if_pos hfull]
    show List.eraseP (fun p => p.1 == k) ((k, w) :: t) ++ [(i, v)] = t ++ [(i, v)]
    rw [List.eraseP_cons_of_pos (by simp)]
  · intro compute
    have hc9 : runGets compute [] [0, 1, 2, 3, 4, 5, 6, 7, 8] =
        [(1, compute 1), (2, compute 2), (3, compute 3), (4, compute 4), (5, compute 5),
          (6, compute 6), (7, compute 7), (8, compute 8)] := by
      simp [runGets, getSubtitleAtIndexT, cacheGet, cacheSet, subtitleCacheMaxSize,
        List.lookup, List.eraseP]
    refine ⟨by rw [hc9]; rfl, by rw [hc9]; rfl, by rw [hc9]; rfl, by rw [hc9]; rfl, rfl⟩

/-- Witness for C5's promotion and eviction at concrete caches: a hit on key
5 promotes it behind key 6, and storing key 100 into a full 8-entry cache
drops the oldest key 0. -/
theorem C5_cache_lru_witness :
    (cacheGet [(5, some (default : SubtitleData)), (6, none)] 5).2 =
      ([(5, some (default : SubtitleData)), (6, none)] : SubtitleCacheMap).eraseP
          (fun p => p.1 == 5) ++ [(5, some (default : SubtitleData))] ∧
    cacheSet ((0, none) ::
        [(1, none), (2, none), (3, none), (4, none), (5, none), (6, none),
          (7, none)]) 100 none =
      [(1, none), (2, none), (3, none), (4, none), (5, none), (6, none), (7, none)] ++
        [(100, none)] :=
  ⟨C5_cache_lru.2.1 [(5, some (default : SubtitleData)), (6, none)] 5 default rfl,
   C5_cache_lru.2.2.1 0 none
     [(1, none), (2, none), (3, none), (4, none), (5, none), (6, none), (7, none)]
     100 none rfl (by simp [subtitleCacheMaxSize])⟩

/-! ### Claims C8 and C9: loading -/

theorem getD_map_pt (sets : List DisplaySet) (i : Nat) (h : i < sets.length) :
    (sets.map (·.presentationTimestamp)).getD i 0 =
      (sets.getD i default).presentationTimestamp := by
  rw [List.getD_eq_getElem _ _ (by simpa using h), List.getD_eq_getElem _ _ h,
    List.getElem_map]

/-- C8: after `loadFromReader` completes on a stream of display sets with
strictly increasing presentation timestamps, `updateTimestamps` is the
timestamp of the display set at each index, has the same length as
`displaySets`, and is strictly increasing. -/
theorem C8_load_invariants (st : PgsState) (sets : List DisplaySet)
    (hmono : sets.Pairwise
      (fun a b => a.presentationTimestamp < b.presentationTimestamp)) :
    (Pgs.loadFromReader st (ParseOutcome.ok sets)).1 = none ∧
    (Pgs.loadFromReader st (ParseOutcome.ok sets)).2.displaySets = sets ∧
    (Pgs.loadFromReader st (ParseOutcome.ok sets)).2.updateTimestamps.length =
      (Pgs.loadFromReader st (ParseOutcome.ok sets)).2.displaySets.length ∧
    (∀ i, i < sets.length →
      (Pgs.loadFromReader st (ParseOutcome.ok sets)).2.updateTimestamps.getD i 0 =
        (sets.getD i default).presentationTimestamp) ∧
    (Pgs.loadFromReader st (ParseOutcome.ok sets)).2.updateTimestamps.Pairwise (· < ·) := by
  have hds : (Pgs.loadFromReader st (ParseOutcome.ok sets)).2.displaySets = sets := by
    rw [Pgs.loadFromReader, foldl_pushSet_displaySets]; rfl
  have hts : (Pgs.loadFromReader st (ParseOutcome.ok sets)).2.updateTimestamps =
      sets.map (·.presentationTimestamp) := by
    rw [Pgs.loadFromReader, foldl_pushSet_updateTimestamps]; rfl
  refine ⟨rfl, hds, ?_, ?_, ?_⟩
  · rw [hds, hts]; simp
  · intro i h
    rw [hts]
    exact getD_map_pt sets i h
  · rw [hts]
    exact List.pairwise_map.mpr hmono

/-- Witness for C8 on a concrete two-set stream with timestamps 0 < 1. -/
theorem C8_load_invariants_witness :
    (Pgs.loadFromReader default
      (ParseOutcome.ok [c2SetWithPalette, c2SetNoComposition])).1 = none ∧
    (Pgs.loadFromReader default
      (ParseOutcome.ok [c2SetWithPalette, c2SetNoComposition])).2.displaySets =
      [c2SetWithPalette, c2SetNoComposition] ∧
    (Pgs.loadFromReader default
      (ParseOutcome.ok [c2SetWithPalette, c2SetNoComposition])).2.updateTimestamps.length =
      (Pgs.loadFromReader default
        (ParseOutcome.ok [c2SetWithPalette, c2SetNoComposition])).2.displaySets.length ∧
    (∀ i, i < ([c2SetWithPalette, c2SetNoComposition] : List DisplaySet).length →
      (Pgs.loadFromReader default
        (ParseOutcome.ok [c2SetWithPalette, c2SetNoComposition])).2.updateTimestamps.getD
          i 0 =
        (([c2SetWithPalette, c2SetNoComposition] : List DisplaySet).getD
          i default).presentationTimestamp) ∧
    (Pgs.loadFromReader default
      (ParseOutcome.ok [c2SetWithPalette,
        c2SetNoComposition])).2.updateTimestamps.Pairwise (· < ·) :=
  C8_load_invariants default [c2SetWithPalette, c2SetNoComposition]
    (by norm_num [List.pairwise_cons, c2SetWithPalette, c2SetNoComposition])

/-- A previously successfully loaded state with one display set. -/
def c9PrevState : PgsState :=
  { displaySets := [c2Target], updateTimestamps := [2], subtitleCache := [] }

/-- C9 counterexample: a load whose parser fails before producing any
DisplaySet (e.g. the stream reader rejects on its first read) surfaces an
error but leaves `displaySets` empty — the previously loaded set is gone,
because `loadFromReader` clears the state before parsing. -/
theorem C9_cex :
    (Pgs.loadFromUrl c9PrevState
      (FetchOutcome.success (ParseOutcome.failAfter []))).1 = some () ∧
    (Pgs.loadFromUrl c9PrevState
      (FetchOutcome.success (ParseOutcome.failAfter []))).2.displaySets = [] ∧
    c9PrevState.displaySets ≠ [] := by
  refine ⟨rfl, rfl, by simp [c9PrevState]⟩

/-- C9 amended: transport failures detected before parsing begins (a fetch
rejection or a non-OK HTTP status in `loadFromUrl`) surface a load error
with the previous state fully intact; but once `loadFromReader` runs it
clears `displaySets`, `updateTimestamps` and the cache first, so a failure
during parsing — even before the first DisplaySet — leaves the freshly
reset state holding only the sets produced so far (none), not the previous
stream. -/
theorem C9_load_failure (st : PgsState) :
    Pgs.loadFromUrl st FetchOutcome.netError = (some (), st) ∧
    (∀ status, Pgs.loadFromUrl st (FetchOutcome.httpError status) = (some (), st)) ∧
    (∀ produced,
      (Pgs.loadFromReader st (ParseOutcome.failAfter produced)).1 = some () ∧
      (Pgs.loadFromReader st (ParseOutcome.failAfter produced)).2.displaySets =
        produced ∧
      (Pgs.loadFromReader st (ParseOutcome.failAfter produced)).2.updateTimestamps =
        produced.map (·.presentationTimestamp) ∧
      (Pgs.loadFromReader st
        (ParseOutcome.failAfter produced)).2.subtitleCache = []) := by
  refine ⟨rfl, fun _ => rfl, fun produced => ⟨rfl, ?_, ?_, ?_⟩⟩
  · rw [Pgs.loadFromReader, foldl_pushSet_displaySets]; rfl
  · rw [Pgs.loadFromReader, foldl_pushSet_updateTimestamps]; rfl
  · rw [Pgs.loadFromReader, foldl_pushSet_cache]

/-! ### Claim C6: timestamp queries versus index queries -/

theorem sorted_getD_strict {ts : List ℚ} (hs : ts.Pairwise (· < ·)) {i j : Nat}
    (hij : i < j) (hj : j < ts.length) : ts.getD i 0 < ts.getD j 0 := by
  have hi : i < ts.length := lt_trans hij hj
  rw [List.getD_eq_getElem ts 0 hi, List.getD_eq_getElem ts 0 hj]
  exact List.pairwise_iff_getElem.mp hs i j hi hj hij

theorem getIndex_at_timestamp (ts : List ℚ) (i : Nat)
    (hs : ts.Pairwise (· < ·)) (hi : i + 1 < ts.length) :
    getIndexFromTimestamps (ts.getD i 0 / 90000) ts = (i : Int) := by
  have h90 : (90000 : ℚ) ≠ 0 := by norm_num
  have hpgs : ts.getD i 0 / 90000 * 90000 = ts.getD i 0 := div_mul_cancel₀ _ h90
  have hsle : ts.Sorted (· ≤ ·) := hs.imp le_of_lt
  unfold getIndexFromTimestamps
  dsimp only
  rw [hpgs]
  rw [if_neg (by omega)]
  rw [if_neg (not_le.mpr (sorted_getD_strict hs (by omega) (by omega)))]
  rw [if_neg (not_lt.mpr (sorted_getD_mono hsle (by omega) (by omega)))]
  have hspec := bsLoop_spec ts (ts.getD i 0) hsle (ts.length - 1 - 0) 0 (ts.length - 1)
    rfl (by omega) (by omega) (sorted_getD_mono hsle (by omega) (by omega))
    (by intro j hj hjl; omega)
  set r := bsLoop ts (ts.getD i 0) 0 (ts.length - 1) with hr
  have hri : r = i := by
    rcases lt_trichotomy r i with h | h | h
    · exact absurd (le_refl (ts.getD i 0)) (not_le.mpr (hspec.2.2.2 i h (by omega)))
    · exact h
    · exact absurd hspec.2.2.1 (not_le.mpr (sorted_getD_strict hs h (by omega)))
  rw [hri]

/-- C6 amended: for a loaded stream with strictly increasing
`updateTimestamps` and every index `i` other than the last,
`getSubtitleAtTimestamp(updateTimestamps[i] / 90000)` and
`getSubtitleAtIndex(i)` agree (value and resulting state); at the last index
the timestamp query resolves to -1 and returns absent instead. -/
theorem C6_timestamp_index_agree (st : PgsState) (i : Nat)
    (hs : st.updateTimestamps.Pairwise (· < ·))
    (hi : i + 1 < st.updateTimestamps.length) :
    Pgs.getSubtitleAtTimestamp st (st.updateTimestamps.getD i 0 / 90000) =
      Pgs.getSubtitleAtIndex st (i : Int) := by
  unfold Pgs.getSubtitleAtTimestamp
  rw [getIndex_at_timestamp _ i hs hi]

/-- Witness for C6 on a concrete two-timestamp stream at index 0. -/
theorem C6_timestamp_index_agree_witness :
    Pgs.getSubtitleAtTimestamp
      { displaySets := [], updateTimestamps := [0, 900], subtitleCache := [] }
      (([0, 900] : List ℚ).getD 0 0 / 90000) =
    Pgs.getSubtitleAtIndex
      { displaySets := [], updateTimestamps := [0, 900], subtitleCache := [] }
      ((0 : Nat) : Int) :=
  C6_timestamp_index_agree
    { displaySets := [], updateTimestamps := [0, 900], subtitleCache := [] } 0
    (by norm_num [List.pairwise_cons]) (by norm_num)

/-- The window of the concrete C6 stream. -/
def sampleWindow : WindowDefinition :=
  { id := 0, horizontalPosition := 0, verticalPosition := 0, width := 2, height := 1 }

/-- The composition object of the concrete C6 stream. -/
def sampleCompositionObject : CompositionObject :=
  { id := 0, windowId := 0, horizontalPosition := 0, verticalPosition := 0,
    hasCropping := false, croppingHorizontalPosition := 0,
    croppingVerticalPosition := 0, croppingWidth := 0, croppingHeight := 0 }

/-- The palette of the concrete C6 stream. -/
def samplePalette : PaletteDefinitionSegment :=
  { id := 0, rgba := [10, 11, 12] }

/-- The single object-definition fragment of the concrete C6 stream. -/
def sampleObjectDefinition : ObjectDefinitionSegment :=
  { id := 0, isFirstInSequence := true, width := 2, height := 1, data := some [1, 1] }

/-- One display set that compiles to an actual subtitle: a 2×1 image whose
two pixels are palette entry 1. -/
def sampleDisplaySet : DisplaySet :=
  { presentationTimestamp := 900,
    presentationComposition := some
      { width := 2, height := 1, paletteId := 0, compositionState := 0,
        compositionObjects := [sampleCompositionObject] },
    paletteDefinitions := [samplePalette],
    objectDefinitions := [sampleObjectDefinition],
    windowDefinitions := [{ windows := [sampleWindow] }] }

/-- A loaded single-set stream. -/
def sampleState : PgsState :=
  { displaySets := [sampleDisplaySet], updateTimestamps := [900], subtitleCache := [] }

/-- The subtitle that `computeSubtitleAtIndex` produces at index 0 of the
sample stream. -/
def sampleCompiledTriple : SubtitleCompositionData :=
  { compositionObject := sampleCompositionObject,
    window := sampleWindow,
    pixelData := { width := 2, height := 1, data := [11, 11] } }

/-- The whole compiled subtitle of the sample stream. -/
def sampleSubtitleData : SubtitleData :=
  { width := 2, height := 1, compositionData := [sampleCompiledTriple] }

/-- C6 counterexample: at the last index (here the only one), querying by its
own timestamp returns absent (the timestamp lookup yields -1, since the
scaled time is not less than the last timestamp), while `getSubtitleAtIndex`
at that index returns an actual subtitle — the two results differ. -/
theorem C6_cex :
    sampleState.updateTimestamps.getD 0 0 = 900 ∧
    (Pgs.getSubtitleAtTimestamp sampleState (900 / 90000)).map Prod.fst =
      some none ∧
    (Pgs.getSubtitleAtIndex sampleState 0).map Prod.fst =
      some (some sampleSubtitleData) ∧
    (some (some sampleSubtitleData) : Option (Option SubtitleData)) ≠ some none := by
  have hrle : rleDecodeC (fun b => ([10, 11, 12] : List Nat)[b]?.getD 0) [[1, 1]] =
      some [some 11, some 11] := by
    rw [rleDecodeC]; simp only [combRead]
    rw [rleDecodeC]; simp only [combRead]
    rw [rleDecodeC]; simp [combRead]
  have hidx : getIndexFromTimestamps (900 / 90000) sampleState.updateTimestamps = -1 := by
    unfold getIndexFromTimestamps sampleState
    norm_num [List.getD]
  have hcompute : computeSubtitleAtIndex sampleState.displaySets 0 =
      some (some sampleSubtitleData) := by
    unfold computeSubtitleAtIndex sampleState sampleDisplaySet
    simp [ctxPalettes, ctxObjects, ctxWindows, collectDefs, scanStop,
      buildCompositionData, getPixelDataFromComposition, pixelBuffer, hrle,
      sampleWindow, sampleCompositionObject, sampleSubtitleData, samplePalette,
      sampleObjectDefinition, sampleCompiledTriple, ownWindows, List.find?]
  refine ⟨rfl, ?_, ?_, by simp [sampleSubtitleData]⟩
  · unfold Pgs.getSubtitleAtTimestamp
    rw [hidx]
    rfl
  · unfold Pgs.getSubtitleAtIndex
    dsimp only [sampleState]
    rw [show cacheGet [] 0 = (none, []) from rfl]
    dsimp only
    rw [show sampleState.displaySets = [sampleDisplaySet] from rfl] at hcompute
    rw [hcompute]
    rfl

end LibPgs
